import Mathlib

/-!
Shallow embedding of `src/main.py` (SIGEL/ANEEL wind-turbine data pipeline):
identifier fetch, batch partitioning of the id list, and the six table
correction rules applied before writing the CSV.  Python floats are modelled
as exact rationals (`Rat`); a pandas cell that may hold a string, a number or
a missing value is modelled by `CellValue`; a DataFrame is a list of
(index-label, row) pairs, the label being the 0-based position produced by
`pd.concat(..., ignore_index=True)`.
-/

set_option autoImplicit false

namespace Sigel

/-- A pandas cell value as seen by the `OPERACAO` lambda of `main.py`:
missing (`NaN`/`None`, caught by `pd.isna`), a string, a Python int, or a
Python float (modelled as an exact rational). -/
inductive CellValue where
  | na : CellValue
  | str (s : String) : CellValue
  | int (n : Int) : CellValue
  | float (q : Rat) : CellValue
deriving DecidableEq, Repr

/-- Python's `str(x)` for the values of `CellValue`.  `str` of an int is its
decimal form; `str` of a float always carries a decimal point or exponent
(so it is never the bare digit string of an integer): we model it exactly on
integral floats (`1.0` ↦ `"1.0"`) and by the rational's printed form
otherwise, which likewise never collides with `"1"`. -/
def pyStr : CellValue → String
  | .na => "nan"
  | .str s => s
  | .int n => toString n
  | .float q => if q.den = 1 then toString q.num ++ ".0" else toString q

/-- `pd.isna` on a `CellValue`. -/
def isNa : CellValue → Bool
  | .na => true
  | _ => false

/-- `main.py` line 131-135: the `OPERACAO` lambda
`lambda x: "Sem informação" if pd.isna(x) else "Sim" if str(x) == "1" else x`. -/
def normalizeOperacao (x : CellValue) : CellValue :=
  if isNa x then .str "Sem informação"
  else if pyStr x = "1" then .str "Sim"
  else x

/-- `main.py` lines 47-57: `CorrectNominalPower`. -/
def CorrectNominalPower (power : Rat) : Rat :=
  if power > 100 then power / 1000
  else if power < 0.05 then power * 1000
  else power

/-- One record of the concatenated table, restricted to the fields the
correction rules read or write.  `NOME_EOL` and `DEN_AEG` are nullable text
columns (`none` = NaN); `extra` stands for every remaining column, which no
correction rule touches. -/
structure Row where
  NOME_EOL : Option String
  DEN_AEG : Option String
  UF : Option String
  POT_MW : Rat
  OPERACAO : CellValue
  latitude : Rat
  longitude : Rat
  extra : Nat
deriving DecidableEq, Repr

/-- A DataFrame entry: pandas index label paired with the row.  After
`pd.concat(..., ignore_index=True)` the labels are `0, 1, 2, ...`. -/
abbrev Entry := Nat × Row

/-- pandas equality of a nullable string cell against a string literal:
`NaN == "s"` is `False` (so `NaN != "s"` is `True`). -/
def cellEqStr (c : Option String) (s : String) : Bool :=
  match c with
  | some t => t = s
  | none => false

/-- `main.py` line 127:
`gdf_total = gdf_total[gdf_total["NOME_EOL"] != "Serra de Gentio do Ouro XXIII"]`. -/
def excludeSerraDe (l : List Entry) : List Entry :=
  l.filter (fun e => ¬ cellEqStr e.2.NOME_EOL "Serra de Gentio do Ouro XXIII")

/-- Row action of `main.py` line 128:
`gdf_total.loc[gdf_total["NOME_EOL"] == "Asa Branca III", "UF"] = "RN"`. -/
def asaBrancaRow (r : Row) : Row :=
  if cellEqStr r.NOME_EOL "Asa Branca III" then { r with UF := some "RN" } else r

/-- `main.py` line 128 as a table transformation. -/
def asaBrancaOverride (l : List Entry) : List Entry :=
  l.map (fun e => (e.1, asaBrancaRow e.2))

/-- Row action of `main.py` line 129:
`gdf_total.loc[gdf_total["NOME_EOL"] == "Barra XI", "UF"] = "MG"`. -/
def barraRow (r : Row) : Row :=
  if cellEqStr r.NOME_EOL "Barra XI" then { r with UF := some "MG" } else r

/-- `main.py` line 129 as a table transformation. -/
def barraOverride (l : List Entry) : List Entry :=
  l.map (fun e => (e.1, barraRow e.2))

/-- Row action of `main.py` line 130:
`gdf_total["POT_MW"] = gdf_total["POT_MW"].apply(CorrectNominalPower)`. -/
def potRow (r : Row) : Row :=
  { r with POT_MW := CorrectNominalPower r.POT_MW }

/-- `main.py` line 130 as a table transformation. -/
def potCorrect (l : List Entry) : List Entry :=
  l.map (fun e => (e.1, potRow e.2))

/-- Row action of `main.py` lines 131-135 (the `OPERACAO` lambda applied to
the `OPERACAO` column). -/
def operacaoRow (r : Row) : Row :=
  { r with OPERACAO := normalizeOperacao r.OPERACAO }

/-- `main.py` lines 131-135 as a table transformation. -/
def operacaoNormalize (l : List Entry) : List Entry :=
  l.map (fun e => (e.1, operacaoRow e.2))

/-- The subset-column tuple of `main.py` line 136:
`subset=["NOME_EOL", "DEN_AEG", "latitude", "longitude"]`.  pandas treats two
NaN name cells as duplicates of each other, which `Option` equality mirrors. -/
def dedupKey (e : Entry) : Option String × Option String × Rat × Rat :=
  (e.2.NOME_EOL, e.2.DEN_AEG, e.2.latitude, e.2.longitude)

/-- `drop_duplicates(keep="first")` core: keep an element iff its key was not
seen on an earlier kept element, scanning left to right.  `seen` accumulates
the keys of kept elements. -/
def dedupGo {α κ : Type} [DecidableEq κ] (key : α → κ) (seen : List κ) :
    List α → List α
  | [] => []
  | x :: xs =>
    if key x ∈ seen then dedupGo key seen xs
    else x :: dedupGo key (key x :: seen) xs

/-- `main.py` line 136:
`gdf_total = gdf_total.drop_duplicates(subset=["NOME_EOL", "DEN_AEG", "latitude", "longitude"])`. -/
def dropDuplicates (l : List Entry) : List Entry :=
  dedupGo dedupKey [] l

/-- `main.py` lines 127-136: the six correction rules in source order. -/
def correctTable (l : List Entry) : List Entry :=
  dropDuplicates (operacaoNormalize (potCorrect (barraOverride (asaBrancaOverride (excludeSerraDe l)))))

/-- `pd.concat(gdfs, ignore_index=True)` stamps rows with labels `0..N-1`;
the pipeline then runs on the labelled table. -/
def initialTable (rows : List Row) : List Entry :=
  rows.enum

/-- Python `range(start, stop, step)` for `step > 0`: the `k`-th element is
`start + k*step`, and there are `⌈(stop-start)/step⌉` of them. -/
def pyRange (start stop step : Nat) : List Nat :=
  (List.range ((stop - start + step - 1) / step)).map (fun k => start + k * step)

/-- `main.py` lines 68-74: the batch loop
`for i in range(0, len(object_ids), batch_size): batch_ids = object_ids[i:i+batch_size]`;
the Python slice `l[i:i+B]` is `(l.drop i).take B`. -/
def mainBatches {α : Type} (batch_size : Nat) (object_ids : List α) : List (List α) :=
  (pyRange 0 object_ids.length batch_size).map
    (fun i => (object_ids.drop i).take batch_size)

/-- Model of an HTTP response for `FetchAllIds`: the status code, and the
outcome of `.json()` followed by the `["objectIds"]` lookup.
`body = none`: the body is not valid JSON (`.json()` raises);
`body = some none`: valid JSON without an `objectIds` key (`KeyError`);
`body = some (some ids)`: valid JSON whose `objectIds` is `ids`. -/
structure HttpResponse where
  statusCode : Nat
  body : Option (Option (List Int))
deriving DecidableEq, Repr

/-- `requests` counts a response as successful (`response.ok`, no
`raise_for_status` exception) iff its status code is below 400. -/
def statusSuccess (s : Nat) : Prop := s < 400

instance (s : Nat) : Decidable (statusSuccess s) := by
  unfold statusSuccess; infer_instance

/-- The ways `FetchAllIds` can terminate with an exception. -/
inductive FetchError where
  | transport : FetchError
  | jsonDecode : FetchError
  | keyError : FetchError
deriving DecidableEq, Repr

/-- `main.py` lines 19-30, `FetchAllIds`: `requests.get(url, params).json()`
then `result["objectIds"]`.  The argument is the transport outcome
(`Except.error` = the GET raised).  Note the source never consults the
status code: there is no `raise_for_status` call in this function. -/
def FetchAllIds (transport : Except Unit HttpResponse) :
    Except FetchError (List Int) :=
  match transport with
  | .error _ => .error .transport
  | .ok resp =>
    match resp.body with
    | none => .error .jsonDecode
    | some none => .error .keyError
    | some (some ids) => .ok ids

/-- `main.py` lines 64-71 up to the batch requests: the list of id chunks the
main block would send to `FetchObjectsBatch`, or the error that aborted the
run first.  An aborting `FetchAllIds` yields no batch request at all. -/
def mainBatchRequests (transport : Except Unit HttpResponse) :
    Except FetchError (List (List Int)) :=
  (FetchAllIds transport).map (mainBatches 1000)

/-- Written from the spec's words, for comparison with `dropDuplicates`:
"remove rows that share an identical (name, designation, latitude,
longitude) tuple with an earlier-kept row, keeping the first occurrence in
current table order" — keep the head, then recursively keep whatever does
not repeat an earlier-kept key. -/
def dedupSpec {α κ : Type} [DecidableEq κ] (key : α → κ) : List α → List α
  | [] => []
  | x :: xs => x :: dedupSpec key (xs.filter (fun y => key y ≠ key x))
termination_by l => l.length
decreasing_by
  simp only [List.length_cons]
  exact Nat.lt_succ_of_le (List.length_filter_le _ _)

/-- Two sample records sharing every dedup-key column, used to instantiate
universally quantified theorems: one with the correctly spelled name, one
with the excluded misspelled name. -/
def rowSerraDo : Row :=
  ⟨some "Serra do Gentio do Ouro XXIII", some "AG1", some "BA", 1, .str "Sim", 10, 20, 0⟩

/-- A record carrying the excluded label "Serra de Gentio do Ouro XXIII". -/
def rowSerraDe : Row :=
  ⟨some "Serra de Gentio do Ouro XXIII", some "AG1", some "BA", 1, .str "Sim", 10, 20, 1⟩

end Sigel

namespace Sigel

/-! ### Helper lemmas -/

lemma cnp_fixed_of_mem {p : Rat} (h1 : 0.05 ≤ p) (h2 : p ≤ 100) :
    CorrectNominalPower p = p := by
  unfold CorrectNominalPower
  rw [if_neg (not_lt.mpr h2), if_neg (not_lt.mpr h1)]

lemma cellEqStr_eq_true {c : Option String} {s : String} :
    cellEqStr c s = true ↔ c = some s := by
  cases c <;> simp [cellEqStr]

lemma dedupGo_sublist {α κ : Type} [DecidableEq κ] (key : α → κ) :
    ∀ (l : List α) (seen : List κ), (dedupGo key seen l).Sublist l := by
  intro l
  induction l with
  | nil => intro seen; exact List.Sublist.refl []
  | cons x xs ih =>
    intro seen
    simp only [dedupGo]
    by_cases hx : key x ∈ seen
    · rw [if_pos hx]
      exact (ih seen).cons x
    · rw [if_neg hx]
      exact (ih (key x :: seen)).cons₂ x

lemma dedupSpec_nil {α κ : Type} [DecidableEq κ] (key : α → κ) :
    dedupSpec key [] = [] := by
  rw [dedupSpec.eq_def]

lemma dedupSpec_cons {α κ : Type} [DecidableEq κ] (key : α → κ) (x : α) (xs : List α) :
    dedupSpec key (x :: xs) = x :: dedupSpec key (xs.filter (fun y => key y ≠ key x)) := by
  rw [dedupSpec.eq_def]

lemma dedupGo_eq_dedupSpec_filter {α κ : Type} [DecidableEq κ] (key : α → κ) :
    ∀ (l : List α) (seen : List κ),
      dedupGo key seen l = dedupSpec key (l.filter (fun x => key x ∉ seen)) := by
  intro l
  induction l with
  | nil => intro seen; rw [List.filter_nil, dedupSpec_nil]; rfl
  | cons x xs ih =>
    intro seen
    simp only [dedupGo, List.filter_cons]
    by_cases hx : key x ∈ seen
    · rw [if_pos hx]
      have hd : (decide (key x ∉ seen)) = false := by simp [hx]
      rw [hd]
      simp only [Bool.false_eq_true, if_false]
      exact ih seen
    · rw [if_neg hx]
      have hd : (decide (key x ∉ seen)) = true := by simp [hx]
      rw [hd]
      simp only [if_true]
      rw [dedupSpec_cons, ih (key x :: seen), List.filter_filter]
      congr 1
      refine congrArg (dedupSpec key) ?_
      apply List.filter_congr
      intro y _
      by_cases h1 : key y = key x <;> by_cases h2 : key y ∈ seen <;>
        simp [h1, h2, List.mem_cons]

lemma nome_asaBrancaRow (r : Row) : (asaBrancaRow r).NOME_EOL = r.NOME_EOL := by
  unfold asaBrancaRow; split <;> rfl

lemma nome_barraRow (r : Row) : (barraRow r).NOME_EOL = r.NOME_EOL := by
  unfold barraRow; split <;> rfl

lemma nome_potRow (r : Row) : (potRow r).NOME_EOL = r.NOME_EOL := rfl

lemma nome_operacaoRow (r : Row) : (operacaoRow r).NOME_EOL = r.NOME_EOL := rfl

lemma dedupKey_asaBrancaRow (e : Entry) :
    dedupKey (e.1, asaBrancaRow e.2) = dedupKey e := by
  unfold dedupKey asaBrancaRow; split <;> rfl

lemma dedupKey_barraRow (e : Entry) :
    dedupKey (e.1, barraRow e.2) = dedupKey e := by
  unfold dedupKey barraRow; split <;> rfl

lemma dedupKey_potRow (e : Entry) : dedupKey (e.1, potRow e.2) = dedupKey e := rfl

lemma dedupKey_operacaoRow (e : Entry) :
    dedupKey (e.1, operacaoRow e.2) = dedupKey e := rfl

lemma correctTable_eq_dedup_map (l : List Entry) :
    correctTable l = dropDuplicates ((excludeSerraDe l).map
      (fun e => (e.1, operacaoRow (potRow (barraRow (asaBrancaRow e.2)))))) := by
  unfold correctTable operacaoNormalize potCorrect barraOverride asaBrancaOverride
  rw [List.map_map, List.map_map, List.map_map]
  rfl

lemma mem_correctTable_nome {l : List Entry} {e : Entry}
    (he : e ∈ correctTable l) :
    ∃ e0 ∈ excludeSerraDe l, e.2.NOME_EOL = e0.2.NOME_EOL := by
  rw [correctTable_eq_dedup_map] at he
  have h1 := (dedupGo_sublist dedupKey _ _).subset he
  obtain ⟨e0, he0, rfl⟩ := List.mem_map.mp h1
  refine ⟨e0, he0, ?_⟩
  simp only [nome_operacaoRow, nome_potRow, nome_barraRow, nome_asaBrancaRow]

lemma rowmap_comm (f g : Row → Row) (h : ∀ r, g (f r) = f (g r)) (l : List Entry) :
    (l.map (fun e => (e.1, f e.2))).map (fun e => (e.1, g e.2)) =
      (l.map (fun e => (e.1, g e.2))).map (fun e => (e.1, f e.2)) := by
  rw [List.map_map, List.map_map]
  apply List.map_congr_left
  intro e _
  simp [h e.2]

lemma dedupGo_map_comm {α κ : Type} [DecidableEq κ] (key : α → κ) (f : α → α)
    (hk : ∀ x, key (f x) = key x) :
    ∀ (l : List α) (seen : List κ),
      dedupGo key seen (l.map f) = (dedupGo key seen l).map f := by
  intro l
  induction l with
  | nil => intro seen; rfl
  | cons x xs ih =>
    intro seen
    simp only [List.map_cons, dedupGo, hk x]
    by_cases hx : key x ∈ seen
    · rw [if_pos hx, if_pos hx, ih seen]
    · rw [if_neg hx, if_neg hx, List.map_cons, ih (key x :: seen)]

lemma dedupGo_seen_congr {α κ : Type} [DecidableEq κ] (key : α → κ) :
    ∀ (l : List α) (seen1 seen2 : List κ),
      (∀ x ∈ l, (key x ∈ seen1 ↔ key x ∈ seen2)) →
      dedupGo key seen1 l = dedupGo key seen2 l := by
  intro l
  induction l with
  | nil => intro s1 s2 _; rfl
  | cons x xs ih =>
    intro s1 s2 h
    have hx := h x (List.mem_cons_self x xs)
    simp only [dedupGo]
    by_cases h1 : key x ∈ s1
    · rw [if_pos h1, if_pos (hx.mp h1)]
      exact ih s1 s2 (fun y hy => h y (List.mem_cons_of_mem x hy))
    · rw [if_neg h1, if_neg (fun hc => h1 (hx.mpr hc))]
      congr 1
      apply ih
      intro y hy
      simp only [List.mem_cons]
      exact or_congr Iff.rfl (h y (List.mem_cons_of_mem x hy))

lemma dedupGo_filter_comm {α κ : Type} [DecidableEq κ] (key : α → κ) (p : α → Bool)
    (hp : ∀ x y, key x = key y → p x = p y) :
    ∀ (l : List α) (seen : List κ),
      dedupGo key seen (l.filter p) = (dedupGo key seen l).filter p := by
  intro l
  induction l with
  | nil => intro seen; rfl
  | cons x xs ih =>
    intro seen
    by_cases hpx : p x = true
    · rw [List.filter_cons, if_pos hpx]
      simp only [dedupGo]
      by_cases hx : key x ∈ seen
      · rw [if_pos hx, if_pos hx, ih seen]
      · rw [if_neg hx, if_neg hx, ih (key x :: seen), List.filter_cons,
          if_pos hpx]
    · rw [List.filter_cons, if_neg hpx]
      simp only [dedupGo]
      by_cases hx : key x ∈ seen
      · rw [if_pos hx, ih seen]
      · rw [if_neg hx, List.filter_cons, if_neg hpx, ← ih (key x :: seen)]
        apply dedupGo_seen_congr
        intro y hy
        have hpy := List.of_mem_filter hy
        have hky : key y ≠ key x := by
          intro hc
          rw [hp y x hc] at hpy
          exact hpx hpy
        simp [List.mem_cons, hky]

lemma asaBrancaRow_barraRow (r : Row) :
    asaBrancaRow (barraRow r) = barraRow (asaBrancaRow r) := by
  unfold asaBrancaRow barraRow
  by_cases h1 : cellEqStr r.NOME_EOL "Asa Branca III" = true <;>
    by_cases h2 : cellEqStr r.NOME_EOL "Barra XI" = true
  · exfalso
    rw [cellEqStr_eq_true] at h1 h2
    rw [h1] at h2
    exact absurd h2 (by decide)
  all_goals simp [h1, h2]

lemma asaBrancaRow_potRow (r : Row) :
    asaBrancaRow (potRow r) = potRow (asaBrancaRow r) := by
  unfold asaBrancaRow potRow
  by_cases h : cellEqStr r.NOME_EOL "Asa Branca III" = true <;> simp [h]

lemma asaBrancaRow_operacaoRow (r : Row) :
    asaBrancaRow (operacaoRow r) = operacaoRow (asaBrancaRow r) := by
  unfold asaBrancaRow operacaoRow
  by_cases h : cellEqStr r.NOME_EOL "Asa Branca III" = true <;> simp [h]

lemma barraRow_potRow (r : Row) :
    barraRow (potRow r) = potRow (barraRow r) := by
  unfold barraRow potRow
  by_cases h : cellEqStr r.NOME_EOL "Barra XI" = true <;> simp [h]

lemma barraRow_operacaoRow (r : Row) :
    barraRow (operacaoRow r) = operacaoRow (barraRow r) := by
  unfold barraRow operacaoRow
  by_cases h : cellEqStr r.NOME_EOL "Barra XI" = true <;> simp [h]

lemma potRow_operacaoRow (r : Row) :
    potRow (operacaoRow r) = operacaoRow (potRow r) := rfl

lemma exPred_key {x y : Entry} (h : dedupKey x = dedupKey y) :
    x.2.NOME_EOL = y.2.NOME_EOL :=
  congrArg (fun t => t.1) h

lemma ex_asa_comm (l : List Entry) :
    excludeSerraDe (asaBrancaOverride l) = asaBrancaOverride (excludeSerraDe l) := by
  unfold excludeSerraDe asaBrancaOverride
  rw [List.filter_map]
  congr 1
  apply List.filter_congr
  intro e _
  simp [nome_asaBrancaRow]

lemma ex_barra_comm (l : List Entry) :
    excludeSerraDe (barraOverride l) = barraOverride (excludeSerraDe l) := by
  unfold excludeSerraDe barraOverride
  rw [List.filter_map]
  congr 1
  apply List.filter_congr
  intro e _
  simp [nome_barraRow]

lemma ex_pot_comm (l : List Entry) :
    excludeSerraDe (potCorrect l) = potCorrect (excludeSerraDe l) := by
  unfold excludeSerraDe potCorrect
  rw [List.filter_map]
  congr 1

lemma ex_op_comm (l : List Entry) :
    excludeSerraDe (operacaoNormalize l) = operacaoNormalize (excludeSerraDe l) := by
  unfold excludeSerraDe operacaoNormalize
  rw [List.filter_map]
  congr 1

lemma ex_dedup_comm (l : List Entry) :
    excludeSerraDe (dropDuplicates l) = dropDuplicates (excludeSerraDe l) := by
  unfold excludeSerraDe dropDuplicates
  refine (dedupGo_filter_comm dedupKey _ ?_ l []).symm
  intro x y h
  simp [exPred_key h]

lemma asa_barra_comm (l : List Entry) :
    asaBrancaOverride (barraOverride l) = barraOverride (asaBrancaOverride l) := by
  unfold asaBrancaOverride barraOverride
  exact rowmap_comm barraRow asaBrancaRow asaBrancaRow_barraRow l

lemma asa_pot_comm (l : List Entry) :
    asaBrancaOverride (potCorrect l) = potCorrect (asaBrancaOverride l) := by
  unfold asaBrancaOverride potCorrect
  exact rowmap_comm potRow asaBrancaRow asaBrancaRow_potRow l

lemma asa_op_comm (l : List Entry) :
    asaBrancaOverride (operacaoNormalize l) = operacaoNormalize (asaBrancaOverride l) := by
  unfold asaBrancaOverride operacaoNormalize
  exact rowmap_comm operacaoRow asaBrancaRow asaBrancaRow_operacaoRow l

lemma asa_dedup_comm (l : List Entry) :
    asaBrancaOverride (dropDuplicates l) = dropDuplicates (asaBrancaOverride l) := by
  unfold asaBrancaOverride dropDuplicates
  exact (dedupGo_map_comm dedupKey _ dedupKey_asaBrancaRow l []).symm

lemma barra_pot_comm (l : List Entry) :
    barraOverride (potCorrect l) = potCorrect (barraOverride l) := by
  unfold barraOverride potCorrect
  exact rowmap_comm potRow barraRow barraRow_potRow l

lemma barra_op_comm (l : List Entry) :
    barraOverride (operacaoNormalize l) = operacaoNormalize (barraOverride l) := by
  unfold barraOverride operacaoNormalize
  exact rowmap_comm operacaoRow barraRow barraRow_operacaoRow l

lemma barra_dedup_comm (l : List Entry) :
    barraOverride (dropDuplicates l) = dropDuplicates (barraOverride l) := by
  unfold barraOverride dropDuplicates
  exact (dedupGo_map_comm dedupKey _ dedupKey_barraRow l []).symm

lemma pot_op_comm (l : List Entry) :
    potCorrect (operacaoNormalize l) = operacaoNormalize (potCorrect l) := by
  unfold potCorrect operacaoNormalize
  exact rowmap_comm operacaoRow potRow potRow_operacaoRow l

lemma pot_dedup_comm (l : List Entry) :
    potCorrect (dropDuplicates l) = dropDuplicates (potCorrect l) := by
  unfold potCorrect dropDuplicates
  exact (dedupGo_map_comm dedupKey _ dedupKey_potRow l []).symm

lemma op_dedup_comm (l : List Entry) :
    operacaoNormalize (dropDuplicates l) = dropDuplicates (operacaoNormalize l) := by
  unfold operacaoNormalize dropDuplicates
  exact (dedupGo_map_comm dedupKey _ dedupKey_operacaoRow l []).symm

lemma fst_rowmap (f : Row → Row) (l : List Entry) :
    (l.map (fun e => (e.1, f e.2))).map Prod.fst = l.map Prod.fst := by
  rw [List.map_map]
  rfl

lemma correctTable_index_sublist (rows : List Row) :
    ((correctTable (initialTable rows)).map Prod.fst).Sublist
      (List.range rows.length) := by
  rw [correctTable_eq_dedup_map, dropDuplicates]
  have h2 := (dedupGo_sublist dedupKey ((excludeSerraDe (initialTable rows)).map
      (fun e => (e.1, operacaoRow (potRow (barraRow (asaBrancaRow e.2)))))) []).map Prod.fst
  rw [fst_rowmap (fun r => operacaoRow (potRow (barraRow (asaBrancaRow r))))
    (excludeSerraDe (initialTable rows))] at h2
  have h4 : (initialTable rows).map Prod.fst = List.range rows.length := by
    rw [initialTable]
    exact List.enum_map_fst rows
  refine h2.trans ?_
  rw [← h4]
  exact (List.filter_sublist _).map Prod.fst

lemma mainBatches_nil {α : Type} (B : Nat) : mainBatches B ([] : List α) = [] := by
  have h : (B - 1) / B = 0 := by
    rcases Nat.eq_zero_or_pos B with hB | hB
    · subst hB; rfl
    · exact Nat.div_eq_of_lt (by omega)
  simp [mainBatches, pyRange, h]

lemma mainBatches_cons {α : Type} (B : Nat) (hB : 0 < B) (l : List α) (hl : l ≠ []) :
    mainBatches B l = l.take B :: mainBatches B (l.drop B) := by
  have hN : 0 < l.length := List.length_pos.mpr hl
  have hc : (l.length - 0 + B - 1) / B = (l.length - 1) / B + 1 := by
    have h1 : l.length - 0 + B - 1 = (l.length - 1) + B := by omega
    rw [h1, Nat.add_div_right _ hB]
  have hc2 : ((l.drop B).length - 0 + B - 1) / B = (l.length - 1) / B := by
    rw [List.length_drop]
    rcases le_or_lt B l.length with h | h
    · congr 1; omega
    · rw [Nat.div_eq_of_lt (by omega), Nat.div_eq_of_lt (by omega)]
  unfold mainBatches pyRange
  rw [hc, hc2, List.range_succ_eq_map, List.map_cons, List.map_cons, List.map_map,
    List.map_map, List.map_map]
  congr 1
  · simp
  · apply List.map_congr_left
    intro k _
    simp only [Function.comp_apply, Nat.zero_add, Nat.succ_eq_add_one, List.drop_drop]
    congr 2
    ring

lemma mainBatches_flatten {α : Type} (B : Nat) (hB : 0 < B) (l : List α) :
    (mainBatches B l).flatten = l := by
  by_cases hl : l = []
  · subst hl; rw [mainBatches_nil]; rfl
  · rw [mainBatches_cons B hB l hl, List.flatten_cons,
      mainBatches_flatten B hB (l.drop B), List.take_append_drop]
termination_by l.length
decreasing_by
  rw [List.length_drop]
  have := List.length_pos.mpr hl
  omega

lemma mainBatches_size_le {α : Type} (B : Nat) (l : List α) :
    ∀ c ∈ mainBatches B l, c.length ≤ B := by
  intro c hc
  unfold mainBatches pyRange at hc
  simp only [List.map_map, List.mem_map] at hc
  obtain ⟨k, -, rfl⟩ := hc
  simp only [Function.comp_apply, List.length_take]
  omega

lemma mainBatches_length {α : Type} (B : Nat) (l : List α) :
    (mainBatches B l).length = (l.length + B - 1) / B := by
  simp [mainBatches, pyRange]

lemma mainBatches_dropLast {α : Type} (B : Nat) (hB : 0 < B) (l : List α) :
    ∀ c ∈ (mainBatches B l).dropLast, c.length = B := by
  by_cases hl : l = []
  · subst hl; simp [mainBatches_nil]
  · rw [mainBatches_cons B hB l hl]
    by_cases hrest : mainBatches B (l.drop B) = []
    · simp [hrest]
    · rw [List.dropLast_cons_of_ne_nil hrest]
      intro c hc
      rcases List.mem_cons.mp hc with rfl | hc
      · have hBl : B < l.length := by
          by_contra hle
          push_neg at hle
          exact hrest (by rw [List.drop_eq_nil_of_le hle, mainBatches_nil])
        rw [List.length_take]
        omega
      · exact mainBatches_dropLast B hB (l.drop B) c hc
termination_by l.length
decreasing_by
  rw [List.length_drop]
  have := List.length_pos.mpr hl
  omega

/-! ### Claim theorems -/

/-- C2: `CorrectNominalPower` returns `p/1000` if `p > 100`, `p*1000` if
`p < 0.05`, and `p` otherwise, so every `p` in `[0.05, 100]` is a fixed
point.  The claim's parenthetical "the interval is its fixed-point set" is
refuted at `p = 0` (see the counterexample); the fixed-point set is
`[0.05, 100] ∪ {0}`. -/
theorem correctNominalPower_branches (p : Rat) :
    (100 < p → CorrectNominalPower p = p / 1000) ∧
    (p < 0.05 → CorrectNominalPower p = p * 1000) ∧
    (0.05 ≤ p → p ≤ 100 → CorrectNominalPower p = p) ∧
    (CorrectNominalPower p = p ↔ (0.05 ≤ p ∧ p ≤ 100) ∨ p = 0) := by
  refine ⟨fun h => ?_, fun h => ?_, fun h1 h2 => cnp_fixed_of_mem h1 h2, ?_⟩
  · unfold CorrectNominalPower; rw [if_pos h]
  · unfold CorrectNominalPower
    rw [if_neg (by push_neg; linarith), if_pos h]
  · constructor
    · intro hfix
      unfold CorrectNominalPower at hfix
      by_cases h1 : 100 < p
      · rw [if_pos h1] at hfix
        exfalso; linarith
      · by_cases h2 : p < 0.05
        · rw [if_neg h1, if_pos h2] at hfix
          right; linarith
        · exact Or.inl ⟨not_lt.mp h2, not_lt.mp h1⟩
    · rintro (⟨h1, h2⟩ | rfl)
      · exact cnp_fixed_of_mem h1 h2
      · norm_num [CorrectNominalPower]

/-- C2 witness: the theorem applied at `p = 200` (a value above 100). -/
theorem correctNominalPower_branches_witness :
    CorrectNominalPower 200 = 200 / 1000 :=
  (correctNominalPower_branches 200).1 (by norm_num)

/-- C2 counterexample to "the interval is its fixed-point set": `0` lies
outside `[0.05, 100]` yet `CorrectNominalPower 0 = 0` (the `p < 0.05` branch
returns `0 * 1000 = 0`). -/
theorem correctNominalPower_fixed_point_counterexample :
    CorrectNominalPower 0 = 0 ∧ ¬ ((0.05 : Rat) ≤ 0 ∧ (0 : Rat) ≤ 100) := by
  norm_num [CorrectNominalPower]

/-- C4: whenever a first application of `CorrectNominalPower` lands in
`[0.05, 100]`, a second application is a no-op; concretely `4200 ↦ 4.2` and
`0.0042 ↦ 4.2`, and `4.2` is stable. -/
theorem correctNominalPower_second_application_noop (p : Rat)
    (h1 : 0.05 ≤ CorrectNominalPower p) (h2 : CorrectNominalPower p ≤ 100) :
    CorrectNominalPower (CorrectNominalPower p) = CorrectNominalPower p ∧
    CorrectNominalPower 4200 = 4.2 ∧
    CorrectNominalPower 0.0042 = 4.2 ∧
    CorrectNominalPower 4.2 = 4.2 := by
  refine ⟨cnp_fixed_of_mem h1 h2, ?_, ?_, ?_⟩ <;> norm_num [CorrectNominalPower]

/-- C4 witness: the theorem applied at `p = 4200`, whose first correction
`4.2` lies in `[0.05, 100]`. -/
theorem correctNominalPower_second_application_noop_witness :
    CorrectNominalPower (CorrectNominalPower 4200) = CorrectNominalPower 4200 :=
  (correctNominalPower_second_application_noop 4200
    (by norm_num [CorrectNominalPower]) (by norm_num [CorrectNominalPower])).1

set_option maxRecDepth 40000 in
/-- C1: the batch loop partitions the id list into `⌈N/B⌉` (written
`(N + B - 1) / B`) contiguous chunks, each of length at most `B`, with every
chunk before the last of length exactly `B`, whose concatenation in order is
the original list (so each identifier appears in exactly one chunk, in
original order); and 1500 identifiers with batch size 1000 yield exactly the
chunk sizes `[1000, 500]`. -/
theorem batch_partition (B : Nat) (hB : 0 < B) (ids : List Int) :
    ((mainBatches B ids).length = (ids.length + B - 1) / B ∧
     (∀ c ∈ mainBatches B ids, c.length ≤ B) ∧
     (mainBatches B ids).flatten = ids ∧
     (∀ c ∈ (mainBatches B ids).dropLast, c.length = B)) ∧
    (mainBatches 1000 (List.range 1500)).map List.length = [1000, 500] := by
  refine ⟨⟨mainBatches_length B ids, mainBatches_size_le B ids,
    mainBatches_flatten B hB ids, mainBatches_dropLast B hB ids⟩, ?_⟩
  rfl

/-- C1 witness: the theorem applied at batch size 2 on a five-element list. -/
theorem batch_partition_witness :
    (mainBatches 2 ([3, 1, 4, 1, 5] : List Int)).flatten = [3, 1, 4, 1, 5] :=
  (batch_partition 2 (by decide) [3, 1, 4, 1, 5]).1.2.2.1

/-- C7: the operation-status normalization maps the literal string `"1"` to
`"Sim"`, a missing value to `"Sem informação"`, and passes every other
string (such as `"0"`) through identically. -/
theorem operacao_normalization (s : String) (hs : s ≠ "1") :
    normalizeOperacao (.str "1") = .str "Sim" ∧
    normalizeOperacao .na = .str "Sem informação" ∧
    normalizeOperacao (.str "0") = .str "0" ∧
    normalizeOperacao (.str s) = .str s := by
  refine ⟨by decide, by decide, by decide, ?_⟩
  simp [normalizeOperacao, isNa, pyStr, hs]

/-- C7 witness: the theorem applied at the string `"Nao"`. -/
theorem operacao_normalization_witness :
    normalizeOperacao (.str "Nao") = .str "Nao" :=
  (operacao_normalization "Nao" (by decide)).2.2.2

/-- C9: the normalization compares `str(x)` with `"1"`, so the integer `1`
(whose string form is `"1"`) is also mapped to `"Sim"`, while the float
`1.0` (string form `"1.0"`) passes through unchanged; in general a
non-missing value is rewritten to `"Sim"` exactly when its string form is
`"1"`. -/
theorem operacao_stringified_match :
    normalizeOperacao (.int 1) = .str "Sim" ∧
    normalizeOperacao (.float 1) = .float 1 ∧
    (∀ v : CellValue, isNa v = false → pyStr v = "1" →
      normalizeOperacao v = .str "Sim") ∧
    (∀ v : CellValue, isNa v = false → pyStr v ≠ "1" →
      normalizeOperacao v = v) := by
  refine ⟨by decide, by decide, fun v h h1 => ?_, fun v h h1 => ?_⟩
  · simp [normalizeOperacao, h, h1]
  · simp [normalizeOperacao, h, h1]

/-- C9 witness: the theorem's general branch applied at the string `"1.0"`. -/
theorem operacao_stringified_match_witness :
    normalizeOperacao (.str "1.0") = .str "1.0" :=
  operacao_stringified_match.2.2.2 (.str "1.0") (by decide) (by decide)

/-- C5: `drop_duplicates` on (NOME_EOL, DEN_AEG, latitude, longitude)
removes exactly the rows whose key tuple repeats that of an earlier-kept
row, keeping the first occurrence in table order (it coincides with the
spec-worded `dedupSpec`); in particular of two rows equal on the key tuple
but different elsewhere, only the first survives. -/
theorem dedup_first_occurrence :
    (∀ l : List Entry, dropDuplicates l = dedupSpec dedupKey l) ∧
    (∀ e1 e2 : Entry, dedupKey e1 = dedupKey e2 →
      dropDuplicates [e1, e2] = [e1]) := by
  constructor
  · intro l
    rw [dropDuplicates, dedupGo_eq_dedupSpec_filter]
    congr 1
    simp
  · intro e1 e2 h
    simp [dropDuplicates, dedupGo, h]

/-- C5 witness: two entries equal on the key tuple, differing in `extra`. -/
theorem dedup_first_occurrence_witness :
    dropDuplicates [(0, rowSerraDo), (1, { rowSerraDo with extra := 5 })] =
      [(0, rowSerraDo)] :=
  dedup_first_occurrence.2 (0, rowSerraDo) (1, { rowSerraDo with extra := 5 }) rfl

/-- C6 counterexample: a second input record named
"Serra do Gentio do Ouro XXIII" that matches an earlier record on the dedup
key tuple passes the exclusion rule but is removed by `drop_duplicates`, so
it is absent from the final output — "every record named
'Serra do Gentio do Ouro XXIII' is present in the output" is false. -/
theorem serra_presence_counterexample :
    (1, { rowSerraDo with extra := 7 }) ∈
      initialTable [rowSerraDo, { rowSerraDo with extra := 7 }] ∧
    ({ rowSerraDo with extra := 7 } : Row).NOME_EOL =
      some "Serra do Gentio do Ouro XXIII" ∧
    (1, { rowSerraDo with extra := 7 }) ∉
      correctTable (initialTable [rowSerraDo, { rowSerraDo with extra := 7 }]) := by
  refine ⟨?_, rfl, ?_⟩
  · have h0 : initialTable [rowSerraDo, { rowSerraDo with extra := 7 }] =
        [(0, rowSerraDo), (1, { rowSerraDo with extra := 7 })] := rfl
    rw [h0]
    exact List.mem_cons_of_mem _ (List.mem_cons_self _ _)
  · have h : correctTable (initialTable [rowSerraDo, { rowSerraDo with extra := 7 }]) =
        [(0, rowSerraDo)] := by
      simp [correctTable, dropDuplicates, dedupGo, operacaoNormalize,
        potCorrect, barraOverride, asaBrancaOverride, excludeSerraDe,
        initialTable, List.enum, List.enumFrom, rowSerraDo,
        potRow, operacaoRow, barraRow, asaBrancaRow, cellEqStr, dedupKey,
        normalizeOperacao, pyStr, isNa,
        show CorrectNominalPower (1 : Rat) = 1 from by
          norm_num [CorrectNominalPower]]
    rw [h]
    simp

/-- C6 (amended): no record of the corrected table is named
"Serra de Gentio do Ouro XXIII" (the exclusion rule drops exactly those and
no later rule changes a name), while every input record named
"Serra do Gentio do Ouro XXIII" (the distinct, correct spelling) passes the
exclusion rule untouched — though such a record can still be removed later
by deduplication when it repeats an earlier-kept row's key tuple. -/
theorem serra_exclusion (l : List Entry) :
    (∀ e ∈ correctTable l,
      e.2.NOME_EOL ≠ some "Serra de Gentio do Ouro XXIII") ∧
    (∀ e ∈ l, e.2.NOME_EOL = some "Serra do Gentio do Ouro XXIII" →
      e ∈ excludeSerraDe l) := by
  constructor
  · intro e he
    obtain ⟨e0, he0, hnome⟩ := mem_correctTable_nome he
    have hp := (List.mem_filter.mp he0).2
    rw [hnome]
    intro hc
    have hcell : cellEqStr e0.2.NOME_EOL "Serra de Gentio do Ouro XXIII" = true :=
      cellEqStr_eq_true.mpr hc
    simp [hcell] at hp
  · intro e he hnome
    rw [excludeSerraDe, List.mem_filter]
    refine ⟨he, ?_⟩
    rw [hnome]
    decide

/-- C6 witness: a correctly spelled record next to an excluded one. -/
theorem serra_exclusion_witness :
    (0, rowSerraDo) ∈ excludeSerraDe [(0, rowSerraDo), (1, rowSerraDe)] :=
  (serra_exclusion [(0, rowSerraDo), (1, rowSerraDe)]).2 (0, rowSerraDo)
    (by decide) rfl

/-- C8: the six correction rules pairwise commute — applying any two of
them in either order yields the same table (the name-override rules touch
only `UF` of disjoint name groups, the power and operation rules touch only
their own column, the exclusion predicate and the dedup key are preserved
by every other rule). -/
theorem correction_rules_commute :
    (∀ l : List Entry, excludeSerraDe (asaBrancaOverride l) = asaBrancaOverride (excludeSerraDe l)) ∧
    (∀ l : List Entry, excludeSerraDe (barraOverride l) = barraOverride (excludeSerraDe l)) ∧
    (∀ l : List Entry, excludeSerraDe (potCorrect l) = potCorrect (excludeSerraDe l)) ∧
    (∀ l : List Entry, excludeSerraDe (operacaoNormalize l) = operacaoNormalize (excludeSerraDe l)) ∧
    (∀ l : List Entry, excludeSerraDe (dropDuplicates l) = dropDuplicates (excludeSerraDe l)) ∧
    (∀ l : List Entry, asaBrancaOverride (barraOverride l) = barraOverride (asaBrancaOverride l)) ∧
    (∀ l : List Entry, asaBrancaOverride (potCorrect l) = potCorrect (asaBrancaOverride l)) ∧
    (∀ l : List Entry, asaBrancaOverride (operacaoNormalize l) = operacaoNormalize (asaBrancaOverride l)) ∧
    (∀ l : List Entry, asaBrancaOverride (dropDuplicates l) = dropDuplicates (asaBrancaOverride l)) ∧
    (∀ l : List Entry, barraOverride (potCorrect l) = potCorrect (barraOverride l)) ∧
    (∀ l : List Entry, barraOverride (operacaoNormalize l) = operacaoNormalize (barraOverride l)) ∧
    (∀ l : List Entry, barraOverride (dropDuplicates l) = dropDuplicates (barraOverride l)) ∧
    (∀ l : List Entry, potCorrect (operacaoNormalize l) = operacaoNormalize (potCorrect l)) ∧
    (∀ l : List Entry, potCorrect (dropDuplicates l) = dropDuplicates (potCorrect l)) ∧
    (∀ l : List Entry, operacaoNormalize (dropDuplicates l) = dropDuplicates (operacaoNormalize l)) :=
  ⟨ex_asa_comm, ex_barra_comm, ex_pot_comm, ex_op_comm, ex_dedup_comm,
   asa_barra_comm, asa_pot_comm, asa_op_comm, asa_dedup_comm,
   barra_pot_comm, barra_op_comm, barra_dedup_comm,
   pot_op_comm, pot_dedup_comm, op_dedup_comm⟩

/-- C10 counterexample: when the only removed row is the last one, the
retained index labels are still contiguous — here the two-row input loses
its second row to the exclusion rule yet the written index is `[0]`, equal
to `range 1`; so "non-contiguous whenever at least one row was removed" is
false. -/
theorem index_gap_counterexample :
    (correctTable (initialTable [rowSerraDo, rowSerraDe])).length <
      ([rowSerraDo, rowSerraDe] : List Row).length ∧
    (correctTable (initialTable [rowSerraDo, rowSerraDe])).map Prod.fst =
      List.range (correctTable (initialTable [rowSerraDo, rowSerraDe])).length := by
  decide

/-- C10 (amended): the row index is never reset before `to_csv`, so the
leading index column of the output is the strictly increasing list of the
surviving rows' pre-correction 0-based labels (a sublist of `0..N-1`); it
has gaps — differs from `range` of the output length — whenever some
surviving row's label is at least the number of output rows (i.e. whenever
a removed row precedes a kept row). -/
theorem index_labels_retained (rows : List Row) :
    ((correctTable (initialTable rows)).map Prod.fst).Sublist
      (List.range rows.length) ∧
    (∀ e ∈ correctTable (initialTable rows),
      (correctTable (initialTable rows)).length ≤ e.1 →
      (correctTable (initialTable rows)).map Prod.fst ≠
        List.range (correctTable (initialTable rows)).length) := by
  refine ⟨correctTable_index_sublist rows, ?_⟩
  intro e he hlen hcon
  have hm : e.1 ∈ (correctTable (initialTable rows)).map Prod.fst :=
    List.mem_map_of_mem Prod.fst he
  rw [hcon] at hm
  have := List.mem_range.mp hm
  omega

/-- C10 witness: a removed first row leaves the kept row labelled `1` in a
one-row output, so the index `[1]` differs from `range 1 = [0]`. -/
theorem index_labels_retained_witness :
    (correctTable (initialTable [rowSerraDe, rowSerraDo])).map Prod.fst ≠
      List.range (correctTable (initialTable [rowSerraDe, rowSerraDo])).length :=
  (index_labels_retained [rowSerraDe, rowSerraDo]).2 (1, rowSerraDo)
    (by
      have h : correctTable (initialTable [rowSerraDe, rowSerraDo]) =
          [(1, rowSerraDo)] := by
        simp [correctTable, dropDuplicates, dedupGo, operacaoNormalize,
          potCorrect, barraOverride, asaBrancaOverride, excludeSerraDe,
          initialTable, List.enum, List.enumFrom, rowSerraDe, rowSerraDo,
          potRow, operacaoRow, barraRow, asaBrancaRow, cellEqStr, dedupKey,
          normalizeOperacao, pyStr, isNa,
          show CorrectNominalPower (1 : Rat) = 1 from by
            norm_num [CorrectNominalPower]]
      rw [h]
      exact List.mem_singleton.mpr rfl)
    (by decide)

/-- C3 counterexample: a response with non-success status 500 whose body is
valid JSON containing `objectIds` is NOT surfaced as an error —
`FetchAllIds` returns the ids (the source never calls `raise_for_status`
here, unlike `FetchObjectsBatch`), and the batch loop would then issue a
request for them. -/
theorem fetchAllIds_status_counterexample :
    ¬ statusSuccess 500 ∧
    FetchAllIds (Except.ok ⟨500, some (some [7])⟩) = Except.ok [7] ∧
    mainBatchRequests (Except.ok ⟨500, some (some [7])⟩) = Except.ok [[7]] := by
  refine ⟨by decide, rfl, rfl⟩

/-- C3 (amended): a transport failure, a non-JSON body, or a JSON body
without the `objectIds` key is surfaced as a fatal error, and any
`FetchAllIds` error aborts the run before any batch request is formed; the
HTTP status code itself is never inspected, so a response carrying
`objectIds` is accepted whatever its status. -/
theorem fetchAllIds_failure_modes :
    (∀ u : Unit, FetchAllIds (Except.error u) = Except.error FetchError.transport) ∧
    (∀ s : Nat, FetchAllIds (Except.ok ⟨s, none⟩) = Except.error FetchError.jsonDecode) ∧
    (∀ s : Nat, FetchAllIds (Except.ok ⟨s, some none⟩) = Except.error FetchError.keyError) ∧
    (∀ (t : Except Unit HttpResponse) (e : FetchError),
      FetchAllIds t = Except.error e → mainBatchRequests t = Except.error e) ∧
    (∀ (s : Nat) (ids : List Int),
      FetchAllIds (Except.ok ⟨s, some (some ids)⟩) = Except.ok ids) := by
  refine ⟨fun _ => rfl, fun _ => rfl, fun _ => rfl, fun t e h => ?_, fun _ _ => rfl⟩
  rw [mainBatchRequests, h]
  rfl

/-- C3 witness: the theorem's abort branch applied to a transport error. -/
theorem fetchAllIds_failure_modes_witness :
    mainBatchRequests (Except.error ()) = Except.error FetchError.transport :=
  fetchAllIds_failure_modes.2.2.2.1 (Except.error ()) FetchError.transport rfl

end Sigel
